import Mathlib

/-!
# A verification development for `ls.c`

Shallow embedding of `src/ls.c`, a minimal directory lister with a `-l` flag.

Everything the program sends to standard output is modelled as a `String`
(the characters handed to `putchar`/`printf`, in order).  Values of `mode_t`
are natural numbers; the bit tests `mode & MASK` are `Nat` bitwise ands.
The constants `S_IF*`, `S_I[RWX]*` and `DT_*` come from the platform headers
`<sys/stat.h>` and `<dirent.h>`; they are given their Linux values.
-/

namespace Ls

/-! ## Constants -/

/-- Colour escape `NORMAL_COLOR` (ls.c line 19). -/
def NORMAL_COLOR : String := "\x1B[0m"

/-- Colour escape `GREEN` (ls.c line 20). -/
def GREEN : String := "\x1B[32m"

/-- Colour escape `BLUE` (ls.c line 21). -/
def BLUE : String := "\x1B[34m"

/-- The file-type mask of `<sys/stat.h>`, octal 0170000. -/
def S_IFMT : Nat := 0o170000
/-- Regular file, octal 0100000. -/
def S_IFREG : Nat := 0o100000
/-- Directory, octal 0040000. -/
def S_IFDIR : Nat := 0o040000
/-- Symbolic link, octal 0120000. -/
def S_IFLNK : Nat := 0o120000
/-- Character device, octal 0020000. -/
def S_IFCHR : Nat := 0o020000
/-- Block device, octal 0060000. -/
def S_IFBLK : Nat := 0o060000
/-- Socket, octal 0140000. -/
def S_IFSOCK : Nat := 0o140000
/-- Named pipe, octal 0010000. -/
def S_IFIFO : Nat := 0o010000

/-- Owner read bit, octal 0400. -/
def S_IRUSR : Nat := 0o400
/-- Owner write bit, octal 0200. -/
def S_IWUSR : Nat := 0o200
/-- Owner execute bit, octal 0100. -/
def S_IXUSR : Nat := 0o100
/-- Group read bit, octal 040. -/
def S_IRGRP : Nat := 0o040
/-- Group write bit, octal 020. -/
def S_IWGRP : Nat := 0o020
/-- Group execute bit, octal 010. -/
def S_IXGRP : Nat := 0o010
/-- Others read bit, octal 04. -/
def S_IROTH : Nat := 0o004
/-- Others write bit, octal 02. -/
def S_IWOTH : Nat := 0o002
/-- Others execute bit, octal 01. -/
def S_IXOTH : Nat := 0o001

/-! ## `print_filetype` and `print_permissions` -/

/-- The characters `print_filetype(mode)` hands to `putchar` (ls.c lines 30-56):
a `switch` on `mode & S_IFMT` with seven cases and no `default`. -/
def print_filetype (mode : Nat) : String :=
  if mode &&& S_IFMT = S_IFREG then "-"
  else if mode &&& S_IFMT = S_IFDIR then "d"
  else if mode &&& S_IFMT = S_IFLNK then "l"
  else if mode &&& S_IFMT = S_IFCHR then "c"
  else if mode &&& S_IFMT = S_IFBLK then "b"
  else if mode &&& S_IFMT = S_IFSOCK then "s"
  else if mode &&& S_IFMT = S_IFIFO then "f"
  else ""

/-- One `putchar((mode & bit) ? letter : '-')` of `print_permissions`. -/
def perm_char (mode bit : Nat) (letter : Char) : Char :=
  if mode &&& bit ≠ 0 then letter else '-'

/-- The characters `print_permissions(mode)` hands to `putchar`, in order
(ls.c lines 63-74). -/
def print_permissions (mode : Nat) : String :=
  String.mk
    [ perm_char mode S_IRUSR 'r', perm_char mode S_IWUSR 'w', perm_char mode S_IXUSR 'x',
      perm_char mode S_IRGRP 'r', perm_char mode S_IWGRP 'w', perm_char mode S_IXGRP 'x',
      perm_char mode S_IROTH 'r', perm_char mode S_IWOTH 'w', perm_char mode S_IXOTH 'x' ]

/-! ## `print_time` -/

/-- The fields of `struct tm` (from `<time.h>`) that the program and `strftime`
read.  `tm_mon` counts months from 0, `tm_year` counts years from 1900. -/
structure tm where
  tm_min : Int
  tm_hour : Int
  tm_mday : Int
  tm_mon : Int
  tm_year : Int
deriving DecidableEq

/-- First alternative of the conditional at ls.c lines 96-98. -/
def FORMAT_RECENT : String := "%b %e %H:%M"

/-- Second alternative of the conditional at ls.c lines 96-98. -/
def FORMAT_OLD : String := "%b %e  %Y"

/-- The `format` chosen by `print_time` (ls.c lines 87-98) from the broken-down
current time and the broken-down modification time. -/
def print_time_format (curr mod : tm) : String :=
  let curr_mon := curr.tm_mon
  let curr_yr := 1970 + curr.tm_year
  let mod_mon := mod.tm_mon
  let mod_yr := 1970 + mod.tm_year
  if mod_yr = curr_yr ∧ mod_mon ≥ curr_mon - 6 then FORMAT_RECENT else FORMAT_OLD

/-! ## The environment of one run -/

/-- The fields of `struct stat` that `list_extended` reads.  The link count is
held as the number that `printf("  %d ", ..)` shows, the size as the `long`
that `(long)file_stat.st_size` yields. -/
structure stat where
  st_mode : Nat
  st_nlink : Nat
  st_uid : Nat
  st_gid : Nat
  st_size : Int
  st_mtime : Int
deriving DecidableEq

/-- The fields of `struct dirent` that `print_dir_content` reads. -/
structure dirent where
  d_name : String
  d_type : Nat
deriving DecidableEq

/-- Directory entry type of `<dirent.h>`: directory. -/
def DT_DIR : Nat := 4
/-- Directory entry type of `<dirent.h>`: regular file. -/
def DT_REG : Nat := 8
/-- Directory entry type of `<dirent.h>`: symbolic link. -/
def DT_LNK : Nat := 10

/-- The operating-system and C-library calls the program makes, as functions of
their arguments.  A `none` stands for the failure value of the call
(`lstat` returning non-zero, `getpwuid`, `getgrgid`, `opendir` and `localtime`
returning `NULL`).  `opendir` yields the entries that successive `readdir` calls
return, in enumeration order.  `time` is the value stored by
`time(&curr_time)`. -/
structure World where
  lstat : String → Option stat
  getpwuid : Nat → Option String
  getgrgid : Nat → Option String
  opendir : String → Option (List dirent)
  time : Int
  localtime : Int → Option tm
  strftime : String → tm → String

/-- How a piece of the program ends: it returns to its caller, the process
terminates with an exit status, or the process faults (a `NULL` dereference). -/
inductive Status where
  | returned : Status
  | exited : Nat → Status
  | crashed : Status
deriving DecidableEq

/-- What a piece of the program did: the characters written to standard
output, the paths passed to `lstat` (in call order), and how it ended. -/
structure Run where
  out : String
  lstats : List String
  status : Status
deriving DecidableEq

/-- A piece of code that does nothing and returns. -/
def Run.skip : Run := Run.mk "" [] Status.returned

/-- Writing `s` to standard output (`putchar`, `printf`). -/
def Run.write (s : String) : Run := Run.mk s [] Status.returned

/-- The call `exit(code)`: the exit status is the low eight bits of `code`. -/
def Run.exit (code : Int) : Run := Run.mk "" [] (Status.exited (code % 256).toNat)

/-- Sequential composition: `b` runs only if `a` returned. -/
def Run.andThen (a b : Run) : Run :=
  match a.status with
  | Status.returned => Run.mk (a.out ++ b.out) (a.lstats ++ b.lstats) b.status
  | _ => a

/-- The function `print_time(mod_time)` (ls.c lines 81-103).  Both results of
`localtime` are dereferenced unchecked: when either is `NULL` the process
faults before anything is written.  Otherwise the modification time formatted
by `strftime` with the chosen format is written, then three spaces. -/
def print_time (w : World) (mod_time : Int) : Run :=
  match w.localtime w.time with
  | none => Run.mk "" [] Status.crashed
  | some curr =>
    match w.localtime mod_time with
    | none => Run.mk "" [] Status.crashed
    | some t => Run.write (w.strftime (print_time_format curr t) t ++ "   ")

/-! ## `list_extended` -/

/-- The length of a C string in bytes, as `strlen` and `printf` count it. -/
def strlen (s : String) : Nat := s.utf8ByteSize

/-- The conversions `%7s` and `%7ld` of `printf`: `s` right-aligned in a field
of at least `width` bytes, padded with spaces on the left. -/
def pad_left (width : Nat) (s : String) : String :=
  String.mk (List.replicate (width - strlen s) ' ') ++ s

/-- The compile-time switch `DEBUG` (ls.c line 23). -/
def DEBUG : Bool := false

/-- The function `list_extended(path)` (ls.c lines 110-131).  When `lstat`
fails the process exits with status 0; `getpwuid(..)->pw_name` and
`getgrgid(..)->gr_name` fault when the id does not resolve, and `print_time`
faults when a time does not convert, each after everything before it has been
written. -/
def list_extended (w : World) (path : String) : Run :=
  match w.lstat path with
  | none =>
    Run.mk (if DEBUG then "lstat error\n" else "") [path] (Status.exited 0)
  | some file_stat =>
    let head := print_filetype file_stat.st_mode ++ print_permissions file_stat.st_mode
      ++ ("  " ++ toString file_stat.st_nlink ++ " ")
    match w.getpwuid file_stat.st_uid with
    | none => Run.mk head [path] Status.crashed
    | some pw_name =>
      match w.getgrgid file_stat.st_gid with
      | none => Run.mk (head ++ (pad_left 7 pw_name ++ " ")) [path] Status.crashed
      | some gr_name =>
        (Run.mk (head ++ (pad_left 7 pw_name ++ " ") ++ (pad_left 7 gr_name ++ "    ")
            ++ (pad_left 7 (toString file_stat.st_size) ++ " "))
          [path] Status.returned).andThen (print_time w file_stat.st_mtime)

/-! ## `print_dir_content` -/

/-- What the `switch (dir->d_type)` and the `printf(NORMAL_COLOR)` after it
write for one entry (ls.c lines 152-171). -/
def print_entry_name (dir : dirent) : String :=
  (if dir.d_type = DT_DIR then BLUE ++ (dir.d_name ++ "\n")
   else if dir.d_type = DT_REG then NORMAL_COLOR ++ (dir.d_name ++ "\n")
   else if dir.d_type = DT_LNK then GREEN ++ (dir.d_name ++ "\n")
   else NORMAL_COLOR ++ (dir.d_name ++ "\n"))
  ++ NORMAL_COLOR

/-- The `while ((dir = readdir(current_dir)) != NULL)` loop of
`print_dir_content` (ls.c lines 146-172) over the entries still to come. -/
def readdir_loop (w : World) (lflag : Bool) : List dirent → Run
  | [] => Run.skip
  | dir :: rest =>
    ((if lflag then list_extended w dir.d_name else Run.skip).andThen
      (Run.write (print_entry_name dir))).andThen (readdir_loop w lflag rest)

/-- The function `print_dir_content(path, lflag)` (ls.c lines 139-175).  The
path is `none` when the pointer passed is `NULL` or points past the argument
vector; `opendir` of such a pointer is undefined and modelled as a fault. -/
def print_dir_content (w : World) (path : Option String) (lflag : Bool) : Run :=
  match path with
  | none => Run.mk "" [] Status.crashed
  | some p =>
    match w.opendir p with
    | none => Run.skip
    | some entries => readdir_loop w lflag entries

/-! ## `usage` and `main` -/

/-- The text `usage(argv0)` prints (ls.c lines 184-189). -/
def usage_text (argv0 : String) : String :=
  "\nDisplay contents of the directory\n"
    ++ "Usage: " ++ argv0 ++ " [options] <path>\n\n"
    ++ "Options:\n"
    ++ "\t-l                List in long format.\n"
    ++ "\t-h                Print this help message.\n"

/-- The function `usage(argv0)` (ls.c lines 182-191): print the text, then `exit(-1)`. -/
def usage (argv0 : String) : Run :=
  (Run.write (usage_text argv0)).andThen (Run.exit (-1))

/-- The values `getopt` returns for the option characters of one argument with
the option string ":lh": the character itself for `l` and `h`, and `?` for any
other character (the character is stored in `optopt`, which `main` never reads). -/
def getopt_cluster : List Char → List Char
  | [] => []
  | c :: cs => (if c = 'l' ∨ c = 'h' then c else '?') :: getopt_cluster cs

/-- The values successive calls `getopt(argc, argv, ":lh")` return before the
first -1, for the arguments after `argv[0]`.  Neither option takes an argument.
Scanning stops at the first argument that is not an option (one that does not
start with `-`, or is `-` alone) and at `--`.  When every option precedes the
operands, as in `[options] <path>`, the argument vector is left in place. -/
def getopt_all : List String → List Char
  | [] => []
  | a :: rest =>
    if a = "--" then []
    else
      match a.toList with
      | c0 :: c1 :: cs =>
        if c0 = '-' then getopt_cluster (c1 :: cs) ++ getopt_all rest else []
      | _ => []

/-- The option loop of `main` (ls.c lines 195-213) over the values `getopt`
still has to return.  It ends either by leaving the loop with the values of
`lflag` and `option_index` (right) or inside `usage` (left). -/
def main_loop (argv0 : String) : List Char → Bool → Nat → Run ⊕ (Bool × Nat)
  | [], lflag, option_index => Sum.inr (lflag, option_index)
  | c :: cs, _, option_index =>
    if c = 'l' then main_loop argv0 cs true (option_index + 1)
    else if c = 'h' then Sum.inl (usage argv0)
    else
      Sum.inl ((Run.write ("Unknown option '" ++ String.singleton c ++ "'\n")).andThen
        (usage argv0))

/-- The arguments of the call `print_dir_content(argv[option_index], lflag)` at
ls.c line 215 (right), or the run that ended inside the option loop (left).
The path is `none` when `option_index` is not the index of an argument. -/
def main_call (argv0 : String) (args : List String) : Run ⊕ (Option String × Bool) :=
  match main_loop argv0 (getopt_all args) false 1 with
  | Sum.inl r => Sum.inl r
  | Sum.inr (lflag, option_index) => Sum.inr ((argv0 :: args)[option_index]?, lflag)

/-- The function `main` (ls.c lines 193-218) for the argument vector
`argv0 :: args`; returning 0 from `main` ends the process with status 0. -/
def main (w : World) (argv0 : String) (args : List String) : Run :=
  match main_call argv0 args with
  | Sum.inl r => r
  | Sum.inr (path, lflag) => (print_dir_content w path lflag).andThen (Run.exit 0)

/-! ## The statements of the specification, in its own words -/

/-- The colour the specification assigns to an entry type: blue for a
directory, green for a symbolic link, the reset code for everything else. -/
def spec_colour (d_type : Nat) : String :=
  if d_type = DT_DIR then BLUE else if d_type = DT_LNK then GREEN else NORMAL_COLOR

/-- The string the specification assigns to one entry: the metadata line of the
bare name when long format is on, then colour code, name, newline, reset code. -/
def spec_entry_output (w : World) (lflag : Bool) (e : dirent) : String :=
  (if lflag then (list_extended w e.d_name).out else "")
    ++ (spec_colour e.d_type ++ e.d_name ++ "\n" ++ NORMAL_COLOR)

/-- Concatenation of a list of strings, in order. -/
def spec_concat : List String → String
  | [] => ""
  | s :: rest => s ++ spec_concat rest

/-- The metadata query of the bare name succeeds: `lstat` succeeds, the owner
and group ids of the result resolve to names, and `localtime` converts the
current time and the modification time of the result. -/
def metadata_ok (w : World) (name : String) : Bool :=
  match w.lstat name with
  | none => false
  | some st =>
    (w.getpwuid st.st_uid).isSome && (w.getgrgid st.st_gid).isSome
      && (w.localtime w.time).isSome && (w.localtime st.st_mtime).isSome

/-! ## A concrete environment -/

/-- A small world.  `lstat` finds three names in the working directory, all
regular files of mode 0644 with one link and five bytes: `a.txt` (owner 1000
"alice", group 100 "staff"), `far.txt` (same owner and group, modification
time 2^62, which `localtime` cannot convert) and `orphan` (owner 4242, an id
without a name).  The directory `.` enumerates `a.txt`, a subdirectory `sub`
and a link `ghost`; the directory `sub` enumerates one regular file `inner`;
the directory `mix` enumerates `a.txt`, `orphan` and `ghost`; no other path
opens. -/
def sample_world : World :=
  World.mk
    (fun p =>
      if p = "a.txt" then some (stat.mk 0o100644 1 1000 100 5 86400)
      else if p = "far.txt" then some (stat.mk 0o100644 1 1000 100 5 (2 ^ 62))
      else if p = "orphan" then some (stat.mk 0o100644 1 4242 100 5 86400)
      else none)
    (fun u => if u = 1000 then some "alice" else none)
    (fun g => if g = 100 then some "staff" else none)
    (fun p =>
      if p = "." then
        some [dirent.mk "a.txt" DT_REG, dirent.mk "sub" DT_DIR, dirent.mk "ghost" DT_LNK]
      else if p = "sub" then some [dirent.mk "inner" DT_REG]
      else if p = "mix" then
        some [dirent.mk "a.txt" DT_REG, dirent.mk "orphan" DT_REG, dirent.mk "ghost" DT_LNK]
      else none)
    172800
    (fun t => if -(2 ^ 55) < t ∧ t < 2 ^ 55 then some (tm.mk 0 0 (1 + t / 86400) 0 70) else none)
    (fun fmt _ => fmt)

/-! ## Bitwise and sequencing lemmas -/

theorem land_mod_of_lt (m b k : Nat) (hb : b < 2 ^ k) : m % 2 ^ k &&& b = m &&& b := by
  apply Nat.eq_of_testBit_eq
  intro i
  simp only [Nat.testBit_and, Nat.testBit_mod_two_pow]
  by_cases hi : i < k
  · simp [hi]
  · have : b.testBit i = false := by
      apply Nat.testBit_lt_two_pow
      exact lt_of_lt_of_le hb (Nat.pow_le_pow_right (by decide) (not_lt.mp hi))
    simp [this]

theorem land_shift_const (m c k : Nat) : m &&& (c <<< k) = ((m >>> k) &&& c) <<< k := by
  apply Nat.eq_of_testBit_eq
  intro i
  simp only [Nat.testBit_and, Nat.testBit_shiftLeft, Nat.testBit_shiftRight]
  by_cases hi : k ≤ i
  · simp [hi, Nat.add_sub_cancel' hi]
  · simp [hi]


theorem print_filetype_field (hi perms : Nat) (hp : perms < 512) :
    (512 * hi + perms) &&& S_IFMT = (512 * hi) &&& S_IFMT := by
  have e : S_IFMT = 120 <<< 9 := by decide
  rw [e, land_shift_const, land_shift_const]
  have h1 : (512 * hi + perms) >>> 9 = hi := by
    rw [Nat.shiftRight_eq_div_pow]; omega
  have h2 : (512 * hi) >>> 9 = hi := by
    rw [Nat.shiftRight_eq_div_pow]; omega
  rw [h1, h2]

theorem returned_andThen (o : String) (l : List String) (r : Run) :
    (Run.mk o l Status.returned).andThen r = Run.mk (o ++ r.out) (l ++ r.lstats) r.status := rfl

theorem print_time_lstats (w : World) (mod_time : Int) :
    (print_time w mod_time).lstats = [] := by
  unfold print_time
  cases w.localtime w.time with
  | none => rfl
  | some curr =>
    simp only
    cases w.localtime mod_time with
    | none => rfl
    | some t => rfl

theorem print_time_returned_iff (w : World) (mod_time : Int) :
    (print_time w mod_time).status = Status.returned
      ↔ ((w.localtime w.time).isSome && (w.localtime mod_time).isSome) = true := by
  unfold print_time
  cases w.localtime w.time with
  | none => simp
  | some curr =>
    simp only
    cases w.localtime mod_time with
    | none => simp
    | some t => simp [Run.write]

theorem list_extended_lstats (w : World) (p : String) : (list_extended w p).lstats = [p] := by
  unfold list_extended
  cases w.lstat p with
  | none => rfl
  | some st =>
    simp only
    cases w.getpwuid st.st_uid with
    | none => rfl
    | some pw =>
      simp only
      cases w.getgrgid st.st_gid with
      | none => rfl
      | some gr =>
        simp only [returned_andThen, print_time_lstats, List.append_nil]

theorem metadata_ok_iff (w : World) (name : String) :
    metadata_ok w name = true ↔ (list_extended w name).status = Status.returned := by
  unfold metadata_ok list_extended
  cases w.lstat name with
  | none => simp
  | some st =>
    simp only
    cases w.getpwuid st.st_uid with
    | none => simp
    | some pw =>
      simp only
      cases w.getgrgid st.st_gid with
      | none => simp
      | some gr =>
        simp only [returned_andThen, print_time_returned_iff, Option.isSome_some,
          Bool.true_and, Bool.and_assoc]

theorem print_entry_name_eq (d : dirent) :
    print_entry_name d = spec_colour d.d_type ++ d.d_name ++ "\n" ++ NORMAL_COLOR := by
  unfold print_entry_name spec_colour
  by_cases h1 : d.d_type = DT_DIR
  · rw [if_pos h1, if_pos h1]
    simp only [String.append_assoc]
  · rw [if_neg h1, if_neg h1]
    by_cases h2 : d.d_type = DT_REG
    · have h3 : d.d_type ≠ DT_LNK := by rw [h2]; decide
      rw [if_pos h2, if_neg h3]
      simp only [String.append_assoc]
    · rw [if_neg h2]
      by_cases h3 : d.d_type = DT_LNK
      · rw [if_pos h3, if_pos h3]
        simp only [String.append_assoc]
      · rw [if_neg h3, if_neg h3]
        simp only [String.append_assoc]

theorem entry_step (w : World) (lflag : Bool) (d : dirent)
    (h : lflag = true → metadata_ok w d.d_name = true) :
    (if lflag then list_extended w d.d_name else Run.skip).andThen
        (Run.write (print_entry_name d))
      = Run.mk (spec_entry_output w lflag d) (if lflag then [d.d_name] else [])
          Status.returned := by
  cases lflag with
  | false =>
    simp [Run.skip, Run.write, Run.andThen, spec_entry_output, print_entry_name_eq]
  | true =>
    have hs := (metadata_ok_iff w d.d_name).mp (h rfl)
    have hl := list_extended_lstats w d.d_name
    simp [Run.write, Run.andThen, spec_entry_output, print_entry_name_eq, hs, hl]

theorem readdir_loop_initial_run (w : World) (lflag : Bool) (pre rest : List dirent)
    (h : lflag = true → ∀ e ∈ pre, metadata_ok w e.d_name = true) :
    readdir_loop w lflag (pre ++ rest)
      = (Run.mk (spec_concat (pre.map (spec_entry_output w lflag)))
          (if lflag then pre.map dirent.d_name else []) Status.returned).andThen
          (readdir_loop w lflag rest) := by
  induction pre with
  | nil =>
    simp [spec_concat, Run.andThen]
  | cons d ds ih =>
    have hd : lflag = true → metadata_ok w d.d_name = true :=
      fun hl => h hl d (List.mem_cons_self d ds)
    have hds : lflag = true → ∀ e ∈ ds, metadata_ok w e.d_name = true :=
      fun hl e he => h hl e (List.mem_cons_of_mem d he)
    rw [List.cons_append, readdir_loop, entry_step w lflag d hd, ih hds, returned_andThen,
      returned_andThen, returned_andThen]
    cases lflag <;> simp [spec_concat, String.append_assoc]

theorem print_permissions_low_bits (other mode : Nat) :
    print_permissions (512 * other + mode % 512) = print_permissions mode := by
  have key : ∀ b, b < 2 ^ 9 → (512 * other + mode % 512) &&& b = mode &&& b := by
    intro b hb
    rw [← land_mod_of_lt (512 * other + mode % 512) b 9 hb, ← land_mod_of_lt mode b 9 hb]
    congr 1
    omega
  simp only [print_permissions, perm_char]
  rw [key S_IRUSR (by decide), key S_IWUSR (by decide), key S_IXUSR (by decide),
    key S_IRGRP (by decide), key S_IWGRP (by decide), key S_IXGRP (by decide),
    key S_IROTH (by decide), key S_IWOTH (by decide), key S_IXOTH (by decide)]

/-- C1: for every mode, `print_permissions` writes exactly nine characters; for
each position k in 0..8 the k-th character is the k-th letter of "rwxrwxrwx"
exactly when the k-th permission bit (0400, 0200, 0100, 040, 020, 010, 04, 02,
01) is set in the mode, and is `-` when it is clear; and replacing every bit
of the mode above the nine permission bits leaves the output unchanged. -/
theorem print_permissions_nine_chars (mode : Nat) :
    (print_permissions mode).length = 9 ∧
    (∀ k : Fin 9, ∃ c letter bit,
        (print_permissions mode).toList[k.val]? = some c ∧
        "rwxrwxrwx".toList[k.val]? = some letter ∧
        [0o400, 0o200, 0o100, 0o040, 0o020, 0o010, 0o004, 0o002, 0o001][k.val]? = some bit ∧
        (c = letter ↔ mode &&& bit ≠ 0) ∧
        (mode &&& bit = 0 → c = '-')) ∧
    (∀ other : Nat, print_permissions (512 * other + mode % 512) = print_permissions mode) := by
  refine ⟨rfl, ?_, ?_⟩
  · intro k
    fin_cases k <;>
      simp [print_permissions, perm_char, S_IRUSR, S_IWUSR, S_IXUSR, S_IRGRP, S_IWGRP,
        S_IXGRP, S_IROTH, S_IWOTH, S_IXOTH]
  · intro other
    exact print_permissions_low_bits other mode

/-- C2: for every mode, `print_filetype` writes `-`, `d`, `l`, `c`, `b`, `s` or
`f` exactly when the file-type field `mode & S_IFMT` is regular, directory,
symlink, char-device, block-device, socket or fifo respectively; it writes one
character in those seven cases and nothing for every other value of the field;
and replacing the nine permission bits of the mode never changes the result. -/
theorem print_filetype_glyph (mode : Nat) :
    (print_filetype mode = "-" ↔ mode &&& S_IFMT = S_IFREG) ∧
    (print_filetype mode = "d" ↔ mode &&& S_IFMT = S_IFDIR) ∧
    (print_filetype mode = "l" ↔ mode &&& S_IFMT = S_IFLNK) ∧
    (print_filetype mode = "c" ↔ mode &&& S_IFMT = S_IFCHR) ∧
    (print_filetype mode = "b" ↔ mode &&& S_IFMT = S_IFBLK) ∧
    (print_filetype mode = "s" ↔ mode &&& S_IFMT = S_IFSOCK) ∧
    (print_filetype mode = "f" ↔ mode &&& S_IFMT = S_IFIFO) ∧
    ((print_filetype mode).length = 1 ↔
      mode &&& S_IFMT ∈ [S_IFREG, S_IFDIR, S_IFLNK, S_IFCHR, S_IFBLK, S_IFSOCK, S_IFIFO]) ∧
    ((print_filetype mode).length = 0 ↔
      mode &&& S_IFMT ∉ [S_IFREG, S_IFDIR, S_IFLNK, S_IFCHR, S_IFBLK, S_IFSOCK, S_IFIFO]) ∧
    (∀ perms : Nat, print_filetype (512 * (mode / 512) + perms % 512) = print_filetype mode) := by
  have hperm : ∀ perms : Nat,
      print_filetype (512 * (mode / 512) + perms % 512) = print_filetype mode := by
    intro perms
    have h1 := print_filetype_field (mode / 512) (perms % 512) (Nat.mod_lt _ (by decide))
    have h2 := print_filetype_field (mode / 512) (mode % 512) (Nat.mod_lt _ (by decide))
    have h3 : 512 * (mode / 512) + mode % 512 = mode := Nat.div_add_mod mode 512
    rw [h3] at h2
    simp only [print_filetype, h1, h2]
  refine ⟨?_, ?_, ?_, ?_, ?_, ?_, ?_, ?_, ?_, hperm⟩ <;>
  · unfold print_filetype
    generalize mode &&& S_IFMT = field
    simp only [S_IFREG, S_IFDIR, S_IFLNK, S_IFCHR, S_IFBLK, S_IFSOCK, S_IFIFO]
    repeat' split
    all_goals simp_all +decide

/-- C3, as stated, fails: with the current time in March (month 2) and the
modification time in October (month 9) of the same year, the modification month
lies outside the window [current-month - 6, current-month], yet `print_time`
chooses the Recent format and not the Old one. -/
theorem print_time_format_window_counterexample :
    ¬ ((tm.mk 0 0 1 9 124).tm_year = (tm.mk 0 0 1 2 124).tm_year ∧
        (tm.mk 0 0 1 2 124).tm_mon - 6 ≤ (tm.mk 0 0 1 9 124).tm_mon ∧
        (tm.mk 0 0 1 9 124).tm_mon ≤ (tm.mk 0 0 1 2 124).tm_mon) ∧
    print_time_format (tm.mk 0 0 1 2 124) (tm.mk 0 0 1 9 124) = FORMAT_RECENT ∧
    print_time_format (tm.mk 0 0 1 2 124) (tm.mk 0 0 1 9 124) ≠ FORMAT_OLD := by
  decide

/-- C3, amended: for every pair of broken-down times, `print_time` chooses the
Recent format exactly when the modification year equals the current year and
the modification month is at least current-month - 6 (there is no upper bound
on the modification month); it chooses the Old format in every other case. -/
theorem print_time_format_lower_bound (curr mod : tm) :
    (print_time_format curr mod = FORMAT_RECENT ↔
      (mod.tm_year = curr.tm_year ∧ curr.tm_mon - 6 ≤ mod.tm_mon)) ∧
    (print_time_format curr mod = FORMAT_OLD ↔
      ¬ (mod.tm_year = curr.tm_year ∧ curr.tm_mon - 6 ≤ mod.tm_mon)) := by
  have hne : FORMAT_RECENT ≠ FORMAT_OLD := by decide
  have hy : (1970 + mod.tm_year = 1970 + curr.tm_year) ↔ mod.tm_year = curr.tm_year := by
    constructor <;> intro h <;> omega
  unfold print_time_format
  simp only [ge_iff_le, hy]
  by_cases h : mod.tm_year = curr.tm_year ∧ curr.tm_mon - 6 ≤ mod.tm_mon
  · rw [if_pos h]
    exact ⟨iff_of_true rfl h, iff_of_false hne (not_not_intro h)⟩
  · rw [if_neg h]
    exact ⟨iff_of_false hne.symm h, iff_of_true rfl h⟩

/-- C4: when the current month M is at least 3 (and at most 11), a
modification time in the same year and in month M - 3 gets the Recent format;
and a modification time whose year is the current year minus one gets the Old
format, whatever the two months are. -/
theorem print_time_format_examples (Y M : Int) (_hM : 3 ≤ M ∧ M ≤ 11) :
    (∀ curr mod : tm, curr.tm_year = Y → curr.tm_mon = M →
      mod.tm_year = Y → mod.tm_mon = M - 3 →
      print_time_format curr mod = FORMAT_RECENT) ∧
    (∀ curr mod : tm, curr.tm_year = Y → mod.tm_year = Y - 1 →
      print_time_format curr mod = FORMAT_OLD) := by
  constructor
  · intro curr mod hcy hcm hmy hmm
    have h : 1970 + mod.tm_year = 1970 + curr.tm_year ∧ mod.tm_mon ≥ curr.tm_mon - 6 := by
      constructor <;> omega
    simp only [print_time_format]
    rw [if_pos h]
  · intro curr mod hcy hmy
    have h : ¬ (1970 + mod.tm_year = 1970 + curr.tm_year ∧ mod.tm_mon ≥ curr.tm_mon - 6) := by
      intro hc
      omega
    simp only [print_time_format]
    rw [if_neg h]

/-- Witness for C4: current time June (month 5) of year 124, modification times
in March of the same year and in December of the year before. -/
theorem print_time_format_examples_witness :
    (3 ≤ (5 : Int) ∧ (5 : Int) ≤ 11) ∧
    print_time_format (tm.mk 0 0 1 5 124) (tm.mk 30 12 9 2 124) = FORMAT_RECENT ∧
    print_time_format (tm.mk 0 0 1 5 124) (tm.mk 30 12 9 11 123) = FORMAT_OLD :=
  ⟨by decide,
   (print_time_format_examples 124 5 (by decide)).1 _ _ rfl rfl rfl rfl,
   (print_time_format_examples 124 5 (by decide)).2 _ _ rfl rfl⟩

/-- C5, as stated, fails: in the sample world the directory `sub` opens and
enumerates the regular file `inner`; with long format on, the metadata query of
the bare name `inner` fails, the process exits, and the colour code, name,
newline and reset code of that entry are never written. -/
theorem print_dir_content_entry_counterexample :
    sample_world.opendir "sub" = some [dirent.mk "inner" DT_REG] ∧
    print_dir_content sample_world (some "sub") true
      = Run.mk "" ["inner"] (Status.exited 0) ∧
    ¬ (∃ before after : String,
        (print_dir_content sample_world (some "sub") true).out
          = before ++ (spec_colour DT_REG ++ "inner" ++ "\n" ++ NORMAL_COLOR) ++ after) := by
  refine ⟨by decide, by decide, ?_⟩
  rintro ⟨before, after, h⟩
  have hout : (print_dir_content sample_world (some "sub") true).out = "" := by decide
  have hlen : (spec_colour DT_REG ++ "inner" ++ "\n" ++ NORMAL_COLOR).length = 14 := by decide
  rw [hout] at h
  have h2 := congrArg String.length h
  rw [String.length_append, String.length_append, hlen] at h2
  have h3 : "".length = 0 := rfl
  omega

/-- C5, amended: for every successfully opened directory and every initial run
e1..ej of its enumeration such that, when long format is on, the metadata
query of each of e1..ej succeeds (`lstat` succeeds, the owner and group ids
resolve to names, and `localtime` converts the current and the modification
time), `print_dir_content` first writes, in
enumeration order, for each of these entries: (only when long format is on)
the metadata line of the bare entry name, looked up by `lstat` as given; then
the colour code of the type (blue for a directory, green for a symbolic link,
reset otherwise), the name, a newline and the reset code; it then goes on with
the remaining entries.  With long format off the whole output is exactly the
concatenation of these per-entry strings over all entries. -/
theorem print_dir_content_initial_run (w : World) (path : String) (lflag : Bool)
    (pre rest : List dirent) (hopen : w.opendir path = some (pre ++ rest))
    (hmeta : lflag = true → ∀ e ∈ pre, metadata_ok w e.d_name = true) :
    print_dir_content w (some path) lflag
      = (Run.mk (spec_concat (pre.map (spec_entry_output w lflag)))
          (if lflag then pre.map dirent.d_name else []) Status.returned).andThen
          (readdir_loop w lflag rest) ∧
    (rest = [] →
      print_dir_content w (some path) lflag
        = Run.mk (spec_concat (pre.map (spec_entry_output w lflag)))
            (if lflag then pre.map dirent.d_name else []) Status.returned) ∧
    (lflag = false →
      print_dir_content w (some path) lflag
        = Run.mk (spec_concat ((pre ++ rest).map (spec_entry_output w false))) []
            Status.returned) := by
  have hrun : print_dir_content w (some path) lflag = readdir_loop w lflag (pre ++ rest) := by
    simp only [print_dir_content, hopen]
  refine ⟨?_, ?_, ?_⟩
  · rw [hrun, readdir_loop_initial_run w lflag pre rest hmeta]
  · intro hrest
    rw [hrun, readdir_loop_initial_run w lflag pre rest hmeta, hrest, returned_andThen]
    simp [readdir_loop, Run.skip]
  · intro hoff
    rw [hrun, hoff]
    have h := readdir_loop_initial_run w false (pre ++ rest) [] (fun hl => by cases hl)
    rw [List.append_nil, returned_andThen] at h
    rw [h]
    simp [readdir_loop, Run.skip]

/-- Witness for C5: the sample world, directory `.`, long format on, with the
initial run consisting of `a.txt` alone. -/
theorem print_dir_content_initial_run_witness :
    sample_world.opendir "."
      = some ([dirent.mk "a.txt" DT_REG] ++ [dirent.mk "sub" DT_DIR, dirent.mk "ghost" DT_LNK]) ∧
    metadata_ok sample_world "a.txt" = true ∧
    print_dir_content sample_world (some ".") true
      = (Run.mk (spec_concat ([dirent.mk "a.txt" DT_REG].map (spec_entry_output sample_world true)))
          (if true then [dirent.mk "a.txt" DT_REG].map dirent.d_name else [])
          Status.returned).andThen
          (readdir_loop sample_world true [dirent.mk "sub" DT_DIR, dirent.mk "ghost" DT_LNK]) :=
  ⟨by decide, by decide,
   (print_dir_content_initial_run sample_world "." true [dirent.mk "a.txt" DT_REG]
      [dirent.mk "sub" DT_DIR, dirent.mk "ghost" DT_LNK] (by decide)
      (by
        intro _ e he
        rw [List.mem_singleton] at he
        subst he
        decide)).1⟩

/-- C7: when the path cannot be opened as a directory, `print_dir_content`
writes nothing and calls `lstat` on nothing, for either value of the
long-format flag, and returns; and every invocation of `main` that passes this
path to `print_dir_content` ends with exit status 0 and an empty output. -/
theorem print_dir_content_unopenable (w : World) (path : String) (lflag : Bool)
    (hopen : w.opendir path = none) :
    print_dir_content w (some path) lflag = Run.mk "" [] Status.returned ∧
    (∀ (argv0 : String) (args : List String),
      main_call argv0 args = Sum.inr (some path, lflag) →
      main w argv0 args = Run.mk "" [] (Status.exited 0)) := by
  have hrun : print_dir_content w (some path) lflag = Run.mk "" [] Status.returned := by
    simp only [print_dir_content, hopen, Run.skip]
  refine ⟨hrun, ?_⟩
  intro argv0 args hcall
  simp only [main, hcall, hrun]
  rfl

/-- Witness for C7: the path `nowhere` of the sample world, listed with `-l`. -/
theorem print_dir_content_unopenable_witness :
    sample_world.opendir "nowhere" = none ∧
    print_dir_content sample_world (some "nowhere") true = Run.mk "" [] Status.returned ∧
    main sample_world "ls" ["-l", "nowhere"] = Run.mk "" [] (Status.exited 0) :=
  ⟨by decide,
   (print_dir_content_unopenable sample_world "nowhere" true (by decide)).1,
   (print_dir_content_unopenable sample_world "nowhere" true (by decide)).2 "ls"
      ["-l", "nowhere"] (by decide)⟩

theorem getopt_cluster_flags (n : Nat) :
    getopt_cluster (List.replicate n 'l') = List.replicate n 'l' := by
  induction n with
  | zero => rfl
  | succ n ih => simp [List.replicate_succ, getopt_cluster, ih]

theorem getopt_all_flags (n : Nat) (rest : List String) :
    getopt_all (List.replicate n "-l" ++ rest) = List.replicate n 'l' ++ getopt_all rest := by
  induction n with
  | zero => rfl
  | succ n ih =>
    have hne : ¬ ("-l" = "--") := by decide
    rw [List.replicate_succ, List.cons_append, getopt_all, if_neg hne, ih]
    rfl

theorem main_loop_flags (argv0 : String) (n : Nat) (lflag : Bool) (option_index : Nat) :
    main_loop argv0 (List.replicate n 'l') lflag option_index
      = Sum.inr (lflag || decide (0 < n), option_index + n) := by
  induction n generalizing lflag option_index with
  | zero => simp [main_loop]
  | succ n ih =>
    rw [List.replicate_succ, main_loop, if_pos rfl, ih]
    simp
    omega

/-- With n flags `-l`, each an argument of its own, followed by one path that
is not itself an option, `main` passes that path to `print_dir_content`, with
long format on exactly when n is positive. -/
theorem main_call_separate_flags (argv0 path : String) (n : Nat)
    (hpath : getopt_all [path] = []) :
    main_call argv0 (List.replicate n "-l" ++ [path]) = Sum.inr (some path, decide (0 < n)) := by
  have hidx : (argv0 :: (List.replicate n "-l" ++ [path]))[1 + n]? = some path := by
    rw [Nat.add_comm, List.getElem?_cons_succ, List.getElem?_append_right (by simp)]
    simp
  simp only [main_call, getopt_all_flags, hpath, List.append_nil, main_loop_flags,
    Bool.false_or, hidx]

/-- With two or more flags `l` grouped in one argument, followed by one path,
the index `main` computes lies past the last argument. -/
theorem main_call_grouped_flags (argv0 path : String) (k : Nat)
    (hpath : getopt_all [path] = []) :
    main_call argv0 [String.mk ('-' :: List.replicate (k + 2) 'l'), path]
      = Sum.inr (none, true) := by
  have hne : ¬ (String.mk ('-' :: List.replicate (k + 2) 'l') = "--") := by
    intro h
    have h2 := congrArg String.data h
    simp [List.replicate_succ] at h2
  have hall : getopt_all [String.mk ('-' :: List.replicate (k + 2) 'l'), path]
      = List.replicate (k + 2) 'l' := by
    rw [getopt_all, if_neg hne]
    have := getopt_cluster_flags (k + 2)
    simp only [List.replicate_succ] at this
    simp [String.toList, List.replicate_succ, hpath, this]
  have hidx : [argv0, String.mk ('-' :: List.replicate (k + 2) 'l'), path][1 + (k + 2)]?
      = none := by
    rw [List.getElem?_eq_none_iff]
    simp only [List.length_cons, List.length_nil]
    omega
  simp only [main_call, hall, main_loop_flags, hidx]
  simp

/-- An argument `-x` in first position, with x none of `l`, `h`, `-`: the error
line shows `?`, followed by the usage text and exit status 255. -/
theorem main_unknown_first_flag (w : World) (argv0 : String) (x : Char)
    (rest : List String) (hl : x ≠ 'l') (hh : x ≠ 'h') (hd : x ≠ '-') :
    main w argv0 (String.mk ['-', x] :: rest)
      = Run.mk ("Unknown option '?'\n" ++ usage_text argv0) [] (Status.exited 255) := by
  have hne : ¬ (String.mk ['-', x] = "--") := by
    intro h
    have h2 := congrArg String.data h
    simp at h2
    exact hd h2
  have hall : getopt_all (String.mk ['-', x] :: rest) = '?' :: getopt_all rest := by
    rw [getopt_all, if_neg hne]
    simp [String.toList, getopt_cluster, hl, hh]
  have hq1 : ¬ ('?' = 'l') := by decide
  have hq2 : ¬ ('?' = 'h') := by decide
  have hline : "Unknown option '" ++ String.singleton '?' ++ "'\n" = "Unknown option '?'\n" := by
    decide
  have hcode : ((-1 : Int) % 256).toNat = 255 := by decide
  simp only [main, main_call, hall, main_loop, if_neg hq1, if_neg hq2, hline, usage,
    Run.write, Run.exit, Run.andThen, hcode, String.append_empty, List.append_nil]

set_option maxRecDepth 100000 in
/-- C9, evaluated at `ls -x .`: the unrecognized flag is `x`, but the error
line written is "Unknown option '?'", because `main` prints the value `getopt`
returned and not `optopt`; the usage text follows, the exit status is 255, and
the letter `x` occurs nowhere in the output. -/
theorem main_unknown_flag_names_question_mark :
    main sample_world "ls" ["-x", "."]
      = Run.mk ("Unknown option '?'\n" ++ usage_text "ls") [] (Status.exited 255) ∧
    'x' ∉ (main sample_world "ls" ["-x", "."]).out.toList := by
  decide

/-- C10, evaluated at `ls -ll .`: `getopt` returns `l` twice for the single
argument `-ll`, so `option_index` is 3 and `argv[3]` is past the last argument:
`print_dir_content` is not called with the path `.`.  With the flags written
separately, and with no flags, the path is the one passed. -/
theorem main_grouped_flags_miss_path :
    main_call "ls" ["-ll", "."] = Sum.inr (none, true) ∧
    main_call "ls" ["-ll", "."] ≠ Sum.inr (some ".", true) ∧
    main_call "ls" ["-l", "-l", "."] = Sum.inr (some ".", true) ∧
    main_call "ls" ["-l", "."] = Sum.inr (some ".", true) ∧
    main_call "ls" ["."] = Sum.inr (some ".", false) := by
  decide

end Ls
